import Mathlib

/-!
# Verification of `daps/model.py`

A shallow embedding of the temporal action-proposal model code in
`daps/model.py`, together with proofs about its behaviour.

Conventions of the embedding:

* Python floats are modelled as rationals (`ℚ`); the loss function, which
  takes real logarithms, is modelled over `ℝ`.
* Python strings are sequences of characters; string operations
  (`startswith`, `split`, `int()`, `float()`) are modelled as executable
  functions over `List Char`.
* numpy arrays are modelled as (nested) lists; operations that can raise
  (`reshape`, broadcasting, `np.stack` of mismatched shapes) return
  `Except`/`Option`.
* External collaborators that live outside `daps/model.py` (the lasagne
  network evaluation, the C3D feature reader, the segment-format utility)
  are modelled from the specification's description of their contracts and
  are marked as such below.
-/

/-! ## Python string primitives, modelled over `List Char` -/

/-- Python `str.startswith(pre)` on character lists. -/
def startswith : List Char → List Char → Bool
  | _, [] => true
  | [], _ :: _ => false
  | a :: as, b :: bs => a = b && startswith as bs

/-- Python `str.split(sep)` (single-character separator) on character
lists.  `splitOnChar ',' "a,,b" = ["a", "", "b"]` and the split of the
empty string is `[""]`, exactly as in Python. -/
def splitOnChar (sep : Char) : List Char → List (List Char)
  | [] => [[]]
  | c :: cs =>
    let r := splitOnChar sep cs
    if c = sep then [] :: r
    else
      match r with
      | [] => [[c]]
      | g :: gs => (c :: g) :: gs

/-- Accumulating decimal-digit parser: consumes the whole list and fails on
the first non-digit character. -/
def digitsAux : List Char → ℕ → Option ℕ
  | [], acc => some acc
  | c :: cs, acc =>
    if '0' ≤ c ∧ c ≤ '9' then digitsAux cs (acc * 10 + (c.toNat - 48)) else none

/-- Python `int()` on an unsigned decimal literal. -/
def pyNat : List Char → Option ℕ
  | [] => none
  | c :: cs => digitsAux (c :: cs) 0

/-- Python `int()` restricted to the optionally-signed decimal integer
literals that appear in model-configuration strings. -/
def pyInt : List Char → Option ℤ
  | '-' :: rest => (pyNat rest).map (fun n => -(n : ℤ))
  | cs => (pyNat cs).map (fun n => (n : ℤ))

/-- Python `float()` on an unsigned decimal literal (`"d"` or `"d.d"`),
giving the exact rational `d + d' / 10 ^ (number of fraction digits)`,
built with `mkRat` so that it evaluates by kernel reduction. -/
def pyFloatNN (cs : List Char) : Option ℚ :=
  match splitOnChar '.' cs with
  | [a] => (pyNat a).map (fun n => mkRat n 1)
  | [a, b] =>
    match pyNat a, pyNat b with
    | some n, some f => some (mkRat (n * 10 ^ b.length + f) (10 ^ b.length))
    | _, _ => none
  | _ => none

/-- Python `float()` restricted to the optionally-signed decimal literals
that appear in model-configuration strings. -/
def pyFloat : List Char → Option ℚ
  | '-' :: rest => (pyFloatNN rest).map Neg.neg
  | cs => pyFloatNN cs

/-! ## The layer graph built by `build_lstm` / `build_mlp` / `build_model`

Lasagne layers are modelled as an inductive type recording exactly the
hyperparameters that `daps/model.py` passes to the lasagne constructors.
A network is the list of layers of the shared body plus the two output
heads attached by `build_model`. -/

/-- The lasagne nonlinearities used in `daps/model.py`.  `rectify` is the
default nonlinearity of `lasagne.layers.DenseLayer`, used whenever the
source omits the `nonlinearity` argument. -/
inductive Nonlinearity
  | rectify
  | sigmoid
  | tanh
  deriving DecidableEq

/-- A nonlinearity has a bounded range exactly when it squashes its input
into a bounded interval: `sigmoid` into (0, 1) and `tanh` into (-1, 1);
`rectify` (`max(0, x)`) has the unbounded range `[0, ∞)`. -/
def Nonlinearity.isBoundedRange : Nonlinearity → Bool
  | .sigmoid => true
  | .tanh => true
  | .rectify => false

/-- One lasagne layer as constructed in `daps/model.py`, with the
hyperparameters the source passes along. -/
inductive Layer
  | input (input_size : ℕ)
  | inputSeq (seq_length : ℤ) (input_size : ℕ)
  | dropout (p : ℚ)
  | dense (width : ℤ) (nonlin : Nonlinearity)
  | lstm (width : ℤ) (grad_clip : ℚ) (forget_bias : ℚ)
  | slice (idx : ℤ) (axis : ℕ)
  deriving DecidableEq

/-- `build_mlp(input_var, depth, width, drop_input, drop_hidden, input_size)`:
input layer, optional input dropout (Python truthiness: present iff
`drop_input` is nonzero), then `depth` dense layers of size `width` with
rectify nonlinearity, each followed by dropout iff `drop_hidden` is
nonzero.  The Python defaults are `drop_input=.2`, `drop_hidden=.5`. -/
def build_mlp (depth width : ℤ) (drop_input drop_hidden : ℚ) (input_size : ℕ) :
    List Layer :=
  let network := [Layer.input input_size]
  let network := if drop_input ≠ 0 then network ++ [Layer.dropout drop_input] else network
  network ++ (List.range depth.toNat).flatMap (fun _ =>
    Layer.dense width .rectify ::
      (if drop_hidden ≠ 0 then [Layer.dropout drop_hidden] else []))

/-- `build_lstm(input_var, seq_length, depth, width, input_size, grad_clip,
forget_bias)`: input layer, `depth` LSTM layers of size `width` with the
given gradient clip and forget-gate bias, then a slice layer retaining the
last output state. -/
def build_lstm (seq_length depth width : ℤ) (input_size : ℕ)
    (grad_clip forget_bias : ℚ) : List Layer :=
  Layer.inputSeq seq_length input_size ::
    ((List.range depth.toNat).map (fun _ => Layer.lstm width grad_clip forget_bias)
      ++ [Layer.slice (-1) 1])

/-- The pair of lasagne output expressions returned by `build_model`:
a shared body, the `localization` head and the `conf` head (each head a
dense layer stacked on the body). -/
structure Network where
  body : List Layer
  localization : Layer
  conf : Layer
  deriving DecidableEq

/-- The exceptions `build_model` can raise: the explicit
`ValueError("Unrecognized model type ...")`, the unpack `ValueError` when
the comma-separated field count is wrong, and the `ValueError` of a failed
`int()`/`float()` conversion. -/
inductive BuildErr
  | unrecognizedModelType (msg : List Char)
  | unpackError
  | convError
  deriving DecidableEq

/-- `build_model(model_prm, input_var, input_size, grad_clip, forget_bias)`.
Defaults in the source: `input_size=4096`, `grad_clip=100`,
`forget_bias=1.0`.  Note that in the `mlp` branch the source passes only
`int(depth), int(width), float(drop_in)` to `build_mlp`, so `build_mlp`'s
`drop_hidden` keeps its default `0.5`: the parsed `drop_hid` field is
never forwarded. -/
def build_model (model_prm : String) (input_size : ℕ)
    (grad_clip forget_bias : ℚ) : Except BuildErr Network :=
  if startswith model_prm.data "mlp:".data then
    match splitOnChar ',' (model_prm.data.drop 4) with
    | [n_outputs, depth, width, drop_in, _drop_hid] =>
      match pyInt n_outputs, pyInt depth, pyInt width, pyFloat drop_in with
      | some no, some d, some w, some di =>
        .ok ⟨build_mlp d w di (mkRat 1 2) input_size,
             Layer.dense (no * 2) .rectify, Layer.dense no .sigmoid⟩
      | _, _, _, _ => .error .convError
    | _ => .error .unpackError
  else if startswith model_prm.data "lstm:".data then
    match splitOnChar ',' (model_prm.data.drop 5) with
    | [n_outputs, seq_length, width, depth] =>
      match pyInt n_outputs, pyInt seq_length, pyInt width, pyInt depth with
      | some no, some sl, some w, some d =>
        .ok ⟨build_lstm sl d w input_size grad_clip forget_bias,
             Layer.dense (no * 2) .rectify, Layer.dense no .sigmoid⟩
      | _, _, _, _ => .error .convError
    | _ => .error .unpackError
  else .error (.unrecognizedModelType ("Unrecognized model type ".data ++ model_prm.data))

/-! ## The proposal-retrieval pipeline (`retrieve_proposals`) -/

/-- The numpy failure modes of `retrieve_proposals`: a failed feature
read, a `ValueError` from parsing `model_prm` inside the function, an
invalid `reshape`, `np.stack` of arrays of mismatched lengths, and a
failed broadcast in the final addition. -/
inductive RErr
  | valueError
  | readError
  | reshapeError
  | stackError
  | broadcastError
  deriving DecidableEq

/-- Resource events on the feature-store handle, in the order they are
performed by `retrieve_proposals`. -/
inductive REvent
  | openInst
  | readBatchEv
  | closeInst
  deriving DecidableEq

/-- Modelled from the spec: the Feature Reader (`daps.c3d_encoder.Feature`,
not part of `daps/model.py`) "opens a feature store file and returns
pooled per-window feature vectors for a given video and window offsets".
It is abstracted as a batched read returning one pooled feature vector per
requested window offset, which may fail; the constructor arguments
(`filename`, `t_size`, `t_stride`, `pool_type`) are absorbed into the
abstract state. -/
structure FeatureStore where
  readBatch : String → List ℤ → ℕ → Except String (List (List ℚ))

/-- The feature batch handed to the network: either the flat 2-D stack
`(batch, feature_dim)` or, for the lstm variant, the reshaped 3-D stack
`(batch, seq_length, feature_dim / seq_length)`. -/
inductive FeatStack
  | flat (rows : List (List ℚ))
  | seq (rows : List (List (List ℚ)))
  deriving DecidableEq

/-- numpy `reshape((-1, 2))` of a flat vector: consecutive pairs; fails
(numpy `ValueError`) when the total size is odd. -/
def reshapeRows2 : List ℚ → Option (List (ℚ × ℚ))
  | [] => some []
  | [_] => none
  | a :: b :: rest => (reshapeRows2 rest).map (fun l => (a, b) :: l)

/-- `forward_pass(network, input_data)`: evaluate both heads
deterministically and reshape the localization output to `(-1, 2)`.  The
lasagne evaluation itself is external; it is abstracted as the function
`net_eval` producing the localization matrix and the confidence matrix. -/
def forward_pass (net_eval : FeatStack → List (List ℚ) × List (List ℚ))
    (input_data : FeatStack) : Option (List (ℚ × ℚ) × List (List ℚ)) :=
  let p := net_eval input_data
  (reshapeRows2 p.1.flatten).map (fun loc => (loc, p.2))

/-- Split a flat vector into `n` consecutive chunks of size `k`. -/
def chunkExact : ℕ → ℕ → List ℚ → List (List ℚ)
  | 0, _, _ => []
  | n + 1, k, xs => xs.take k :: chunkExact n k (xs.drop k)

/-- numpy `reshape(batch, seq_length, feature_dim / seq_length)` (Python 2
integer division) of the feature stack: each row is split into
`seq_length` chunks; fails when `seq_length` does not divide the feature
dimension (or is not positive). -/
def reshapeSeq (rows : List (List ℚ)) (seq_length : ℕ) :
    Except RErr (List (List (List ℚ))) :=
  if seq_length = 0 then .error .reshapeError
  else rows.mapM (fun r =>
    if seq_length ∣ r.length then
      .ok (chunkExact seq_length (r.length / seq_length) r)
    else .error .reshapeError)

/-- Lines 139-144 of the source: if `model_prm` starts with `"lstm:"`,
re-parse it and reshape the flat feature stack to
`(batch, seq_length, feature_dim / seq_length)`; otherwise keep the flat
stack. -/
def buildStack (model_prm : String) (feat_rows : List (List ℚ)) :
    Except RErr FeatStack :=
  if startswith model_prm.data "lstm:".data then
    match splitOnChar ',' (model_prm.data.drop 5) with
    | [_n_outputs, seq_length, _width, _depth] =>
      match pyInt seq_length with
      | some sl => (reshapeSeq feat_rows sl.toNat).map FeatStack.seq
      | none => .error .valueError
    | _ => .error .valueError
  else .ok (.flat feat_rows)

/-- `np.arange(0, stop, step)` over the integers, for positive `step`:
the arithmetic sequence `0, step, 2*step, ...` of all multiples of `step`
strictly below `stop` (the stop value is excluded). -/
def npArange (stop step : ℤ) : List ℤ :=
  (List.range ((stop + step - 1).toNat / step.toNat)).map (fun i : ℕ => step * (i : ℤ))

/-- `f_init_array = np.arange(0, l_size - T, stride)`: the window start
offsets scanned by `retrieve_proposals`. -/
def windowOffsets (l_size T stride : ℕ) : List ℤ :=
  npArange ((l_size : ℤ) - T) stride

/-- numpy `clip(0, 1)` of a scalar. -/
def clip01 (x : ℚ) : ℚ := min (max x 0) 1

/-- numpy `astype(int)` of a scalar: truncation toward zero. -/
def npInt (q : ℚ) : ℤ := if 0 ≤ q then ⌊q⌋ else ⌈q⌉

/-- `np.stack((f_init_array, np.zeros(n_segments))).repeat(n_proposals,
axis=-1).T`: the row `(f_init_array[k / n_proposals], 0)` for each
`k < n_segments * n_proposals` (each window start repeated `n_proposals`
consecutive times), assuming the stacked arrays have equal length. -/
def mapRows (f_init : List ℤ) (n_proposals : ℕ) : List (ℚ × ℚ) :=
  f_init.flatMap (fun s => List.replicate n_proposals ((s : ℚ), (0 : ℚ)))

/-- numpy elementwise `+` on two arrays of shape `(n, 2)`, including the
length-1 broadcast cases; fails on incompatible shapes. -/
def npAddRows (a b : List (ℚ × ℚ)) : Except RErr (List (ℚ × ℚ)) :=
  if a.length = b.length then
    .ok (List.zipWith (fun p q => (p.1 + q.1, p.2 + q.2)) a b)
  else if b.length = 1 then
    .ok (a.map (fun p => (p.1 + (b.headD (0, 0)).1, p.2 + (b.headD (0, 0)).2)))
  else if a.length = 1 then
    .ok (b.map (fun q => ((a.headD (0, 0)).1 + q.1, (a.headD (0, 0)).2 + q.2)))
  else .error .broadcastError

/-- Modelled from the spec: the segment-format utility
(`daps.utils.segment.format(..., 'c2b')`, not part of `daps/model.py`)
"converts raw (start, pseudo-width) pairs into canonical boundary format"
(corner-to-boundary): `(start, width) ↦ (start, start + width)`. -/
def segment_format_c2b (row : ℚ × ℚ) : ℚ × ℚ := (row.1, row.1 + row.2)

/-- `retrieve_proposals(video_name, l_size, network, T, stride, c3d_size,
c3d_stride, pool_type, hdf5_dataset, model_prm)`.  Defaults in the source:
`T=256`, `stride=128`.  The C3D parameters and the feature file are
absorbed into `store`; the network evaluation is abstracted as `net_eval`.
The result carries the trace of resource events performed on the
feature-store handle; note that the source closes the handle only after
the batched read and the optional lstm reshape have succeeded (there is no
`try`/`finally`). -/
def retrieve_proposals (store : FeatureStore)
    (net_eval : FeatStack → List (List ℚ) × List (List ℚ))
    (video_name : String) (l_size : ℕ) (T stride : ℕ) (model_prm : String) :
    Except RErr (List (ℤ × ℤ) × List ℚ) × List REvent :=
  let f_init_array := windowOffsets l_size T stride
  match store.readBatch video_name f_init_array T with
  | .error _ => (.error .readError, [REvent.openInst])
  | .ok feat_rows =>
    match buildStack model_prm feat_rows with
    | .error e => (.error e, [REvent.openInst, REvent.readBatchEv])
    | .ok feat_stack =>
      match forward_pass net_eval feat_stack with
      | none =>
        (.error .reshapeError,
         [REvent.openInst, REvent.readBatchEv, REvent.closeInst])
      | some (loc, score) =>
        let n_proposals := (score.headD []).length
        let n_segments := score.length
        if f_init_array.length = n_segments then
          match npAddRows (mapRows f_init_array n_proposals)
              (loc.map (fun p => (clip01 p.1 * T, clip01 p.2 * T))) with
          | .error e =>
            (.error e, [REvent.openInst, REvent.readBatchEv, REvent.closeInst])
          | .ok absRows =>
            (.ok (absRows.map (fun r =>
                    (npInt (segment_format_c2b r).1, npInt (segment_format_c2b r).2)),
                  score.flatten),
             [REvent.openInst, REvent.readBatchEv, REvent.closeInst])
        else
          (.error .stackError,
           [REvent.openInst, REvent.readBatchEv, REvent.closeInst])

/-! ## The loss function (`weigthed_binary_crossentropy`) -/

/-- `EPSILON = 10e-8` from the head of the module. -/
noncomputable def EPSILON : ℝ := 10 / 10 ^ 8

/-- `T.clip(x, lo, np.inf)`: clip below at `lo`, no finite upper bound. -/
noncomputable def npclipInf (x lo : ℝ) : ℝ := max x lo

/-- The logarithm as evaluated by the numerical framework: finite (`some`)
on positive inputs, `-inf`/`NaN` (`none`) otherwise. -/
noncomputable def safeLog (x : ℝ) : Option ℝ :=
  if 0 < x then some (Real.log x) else none

/-- `weigthed_binary_crossentropy(predictions, targets, w0, w1)`,
elementwise: `-(w1 * targets * log(clip(predictions, EPSILON, inf)) +
w0 * (1 - targets) * log(clip(1 - predictions, EPSILON, inf)))`, with
`none` standing for a non-finite result. -/
noncomputable def weigthed_binary_crossentropy (predictions targets w0 w1 : ℝ) :
    Option ℝ :=
  match safeLog (npclipInf predictions EPSILON),
        safeLog (npclipInf (1 - predictions) EPSILON) with
  | some pos_log, some neg_log =>
    some (-(w1 * targets * pos_log + w0 * (1 - targets) * neg_log))
  | _, _ => none

/-! ## Concrete instances used to witness the theorems below -/

/-- A feature store that answers every batched read with one fixed
two-dimensional feature vector per requested offset. -/
def demoStore : FeatureStore :=
  ⟨fun _ offs _ => .ok (offs.map (fun _ => [(1 : ℚ), 2]))⟩

/-- A feature store whose batched read always fails. -/
def failStore : FeatureStore :=
  ⟨fun _ _ _ => .error "io error"⟩

/-- A network evaluation with one localization pair and one confidence
score per batch row (`n_outputs = 1`). -/
def demoNet : FeatStack → List (List ℚ) × List (List ℚ)
  | .flat rows => (rows.map (fun _ => [(2 : ℚ), -1]), rows.map (fun _ => [(3 : ℚ)]))
  | .seq rows => (rows.map (fun _ => [(2 : ℚ), -1]), rows.map (fun _ => [(3 : ℚ)]))

/-! ## Basic lemmas about the embedded operations -/

theorem windowOffsets_nil_of_le {L T s : ℕ} (h : L ≤ T) : windowOffsets L T s = [] := by
  unfold windowOffsets npArange
  have h0 : (((L : ℤ) - T) + s - 1).toNat / (s : ℤ).toNat = 0 := by
    rcases Nat.eq_zero_or_pos s with hs | hs
    · subst hs; simp
    · apply Nat.div_eq_of_lt
      omega
  rw [h0]
  rfl

theorem windowOffsets_length {L T s : ℕ} (hLT : T < L) (hs : 0 < s) :
    (windowOffsets L T s).length = (L - T - 1) / s + 1 := by
  unfold windowOffsets npArange
  rw [List.length_map, List.length_range]
  have h1 : (((L : ℤ) - T) + s - 1).toNat = (L - T - 1) + s := by omega
  have h2 : ((s : ℤ)).toNat = s := by omega
  rw [h1, h2, Nat.add_div_right _ hs]

theorem flatten_length_uniform {α : Type} {xs : List (List α)} {n : ℕ}
    (h : ∀ r ∈ xs, r.length = n) : xs.flatten.length = xs.length * n := by
  induction xs with
  | nil => simp
  | cons a tl ih =>
    rw [List.flatten_cons, List.length_append, List.length_cons,
      h a (List.mem_cons_self a tl), ih (fun r hr => h r (List.mem_cons_of_mem _ hr))]
    ring

theorem flatten_getD_uniform {α : Type} (d : α) :
    ∀ (xs : List (List α)) (n k : ℕ), (∀ r ∈ xs, r.length = n) → k < xs.length * n →
      xs.flatten.getD k d = (xs.getD (k / n) []).getD (k % n) d := by
  intro xs
  induction xs with
  | nil => intro n k _ hk; simp at hk
  | cons a tl ih =>
    intro n k h hk
    have hn : 0 < n := by
      rcases Nat.eq_zero_or_pos n with h0 | h0
      · subst h0; simp at hk
      · exact h0
    have ha : a.length = n := h a (List.mem_cons_self a tl)
    rw [List.flatten_cons]
    by_cases hkn : k < n
    · rw [List.getD_append _ _ _ _ (by omega), Nat.div_eq_of_lt hkn, Nat.mod_eq_of_lt hkn]
      rfl
    · push_neg at hkn
      obtain ⟨j, rfl⟩ : ∃ j, k = j + n := ⟨k - n, by omega⟩
      rw [List.getD_append_right _ _ _ _ (by omega), ha]
      have hj : j < tl.length * n := by
        rw [List.length_cons, Nat.succ_mul] at hk
        omega
      rw [show j + n - n = j by omega,
        ih n j (fun r hr => h r (List.mem_cons_of_mem _ hr)) hj,
        Nat.add_div_right _ hn, Nat.add_mod_right]
      rfl

theorem mapRows_length (f : List ℤ) (n : ℕ) : (mapRows f n).length = f.length * n := by
  induction f with
  | nil => simp [mapRows]
  | cons a tl ih =>
    simp only [mapRows, List.flatMap_cons, List.length_append, List.length_replicate,
      List.length_cons] at ih ⊢
    rw [ih]
    ring

theorem mapRows_getD :
    ∀ (f : List ℤ) (n k : ℕ), k < f.length * n →
      (mapRows f n).getD k (0, 0) = (((f.getD (k / n) 0 : ℤ) : ℚ), (0 : ℚ)) := by
  intro f
  induction f with
  | nil => intro n k hk; simp at hk
  | cons a tl ih =>
    intro n k hk
    have hn : 0 < n := by
      rcases Nat.eq_zero_or_pos n with h0 | h0
      · subst h0; simp at hk
      · exact h0
    simp only [mapRows, List.flatMap_cons]
    by_cases hkn : k < n
    · rw [List.getD_append _ _ _ _ (by simpa using hkn),
        List.getD_eq_getElem _ _ (by simpa using hkn), List.getElem_replicate,
        Nat.div_eq_of_lt hkn]
      rfl
    · push_neg at hkn
      obtain ⟨j, rfl⟩ : ∃ j, k = j + n := ⟨k - n, by omega⟩
      rw [List.getD_append_right _ _ _ _ (by simp [hkn]), List.length_replicate]
      have hj : j < tl.length * n := by
        rw [List.length_cons, Nat.succ_mul] at hk
        omega
      have := ih n j hj
      simp only [mapRows] at this
      rw [show j + n - n = j by omega, this, Nat.add_div_right _ hn]
      rfl

theorem npAddRows_of_length_eq (a b : List (ℚ × ℚ)) (h : a.length = b.length) :
    npAddRows a b = .ok (List.zipWith (fun p q => (p.1 + q.1, p.2 + q.2)) a b) := by
  simp [npAddRows, h]

theorem npAddRows_nil_ok {b : List (ℚ × ℚ)} {r : List (ℚ × ℚ)}
    (h : npAddRows [] b = .ok r) : r = [] := by
  unfold npAddRows at h
  split at h
  · simp only [Except.ok.injEq] at h
    rw [← h]
    simp
  · split at h
    · simp only [Except.ok.injEq] at h
      rw [← h]
      rfl
    · split at h
      · simp at *
      · simp at h

theorem clip01_nonneg (x : ℚ) : 0 ≤ clip01 x :=
  le_min (le_max_right x 0) (by norm_num)

theorem clip01_le_one (x : ℚ) : clip01 x ≤ 1 := min_le_right _ _

theorem le_npInt {a : ℤ} {v : ℚ} (h : (a : ℚ) ≤ v) : a ≤ npInt v := by
  unfold npInt
  split
  · exact Int.le_floor.mpr h
  · calc a = ⌈(a : ℚ)⌉ := (Int.ceil_intCast a).symm
      _ ≤ ⌈v⌉ := Int.ceil_le_ceil h

theorem npInt_le {b : ℤ} {v : ℚ} (h : v ≤ (b : ℚ)) : npInt v ≤ b := by
  unfold npInt
  split
  · calc ⌊v⌋ ≤ ⌊(b : ℚ)⌋ := Int.floor_le_floor h
      _ = b := Int.floor_intCast b
  · exact Int.ceil_le.mpr h

theorem npInt_mono {v w : ℚ} (h : v ≤ w) : npInt v ≤ npInt w := by
  unfold npInt
  split <;> split
  · exact Int.floor_le_floor h
  · exact absurd (le_trans (by assumption) h) (by assumption)
  · have h1 : ⌈v⌉ ≤ 0 := Int.ceil_le.mpr (by exact_mod_cast le_of_lt (lt_of_not_ge (by assumption)))
    have h2 : 0 ≤ ⌊w⌋ := Int.floor_nonneg.mpr (by assumption)
    omega
  · exact Int.ceil_le_ceil h

/-! ## Characterizations of `retrieve_proposals` runs -/

theorem retrieve_run {store : FeatureStore}
    {net_eval : FeatStack → List (List ℚ) × List (List ℚ)}
    {video : String} {L T s : ℕ} {prm : String}
    {feat_rows : List (List ℚ)} {feat_stack : FeatStack}
    {loc : List (ℚ × ℚ)} {score : List (List ℚ)}
    (hread : store.readBatch video (windowOffsets L T s) T = .ok feat_rows)
    (hstack : buildStack prm feat_rows = .ok feat_stack)
    (hfwd : forward_pass net_eval feat_stack = some (loc, score))
    (hseg : (windowOffsets L T s).length = score.length)
    (hloc : loc.length = score.length * (score.headD []).length) :
    retrieve_proposals store net_eval video L T s prm =
      (.ok ((List.zipWith (fun p q => (p.1 + q.1, p.2 + q.2))
              (mapRows (windowOffsets L T s) (score.headD []).length)
              (loc.map (fun p => (clip01 p.1 * T, clip01 p.2 * T)))).map
              (fun r => (npInt (segment_format_c2b r).1, npInt (segment_format_c2b r).2)),
            score.flatten),
       [REvent.openInst, REvent.readBatchEv, REvent.closeInst]) := by
  have hlen : (mapRows (windowOffsets L T s) (score.headD []).length).length
      = (loc.map (fun p => (clip01 p.1 * (T : ℚ), clip01 p.2 * T))).length := by
    rw [mapRows_length, List.length_map, hloc, hseg]
  simp only [retrieve_proposals, hread, hstack, hfwd]
  rw [if_pos hseg, npAddRows_of_length_eq _ _ hlen]

theorem retrieve_ok_inv {store : FeatureStore}
    {net_eval : FeatStack → List (List ℚ) × List (List ℚ)}
    {video : String} {L T s : ℕ} {prm : String}
    {props : List (ℤ × ℤ)} {scores : List ℚ} {tr : List REvent}
    (h : retrieve_proposals store net_eval video L T s prm = (.ok (props, scores), tr)) :
    ∃ feat_rows feat_stack loc score absRows,
      store.readBatch video (windowOffsets L T s) T = .ok feat_rows ∧
      buildStack prm feat_rows = .ok feat_stack ∧
      forward_pass net_eval feat_stack = some (loc, score) ∧
      (windowOffsets L T s).length = score.length ∧
      npAddRows (mapRows (windowOffsets L T s) (score.headD []).length)
        (loc.map (fun p => (clip01 p.1 * T, clip01 p.2 * T))) = .ok absRows ∧
      props = absRows.map
        (fun r => (npInt (segment_format_c2b r).1, npInt (segment_format_c2b r).2)) ∧
      scores = score.flatten ∧
      tr = [REvent.openInst, REvent.readBatchEv, REvent.closeInst] := by
  simp only [retrieve_proposals] at h
  split at h
  · simp at h
  · next feat_rows hread =>
    split at h
    · simp at h
    · next feat_stack hstack =>
      split at h
      · simp at h
      · next loc score hfwd =>
        split at h
        · next hseg =>
          split at h
          · simp at h
          · next absRows hadd =>
            simp only [Prod.mk.injEq, Except.ok.injEq] at h
            exact ⟨feat_rows, feat_stack, loc, score, absRows, hread, hstack, hfwd,
              hseg, hadd, h.1.1.symm, h.1.2.symm, h.2.symm⟩
        · simp at h

theorem getD_map_of_lt {α β : Type} (f : α → β) (l : List α) (d : β) (e : α) (k : ℕ)
    (hk : k < l.length) : (l.map f).getD k d = f (l.getD k e) := by
  rw [List.getD_eq_getElem _ _ (by simpa using hk), List.getD_eq_getElem _ _ hk,
    List.getElem_map]

theorem getD_zipWith_of_lt {α β γ : Type} (g : α → β → γ) (a : List α) (b : List β)
    (da : α) (db : β) (dg : γ) (k : ℕ) (h1 : k < a.length) (h2 : k < b.length) :
    (List.zipWith g a b).getD k dg = g (a.getD k da) (b.getD k db) := by
  rw [List.getD_eq_getElem _ _ (by rw [List.length_zipWith]; exact lt_min h1 h2),
    List.getD_eq_getElem _ _ h1, List.getD_eq_getElem _ _ h2, List.getElem_zipWith]

theorem output_getD (f_init : List ℤ) (loc : List (ℚ × ℚ)) (nP T k : ℕ)
    (hk : k < f_init.length * nP) (hloc : loc.length = f_init.length * nP) :
    ((List.zipWith (fun p q => (p.1 + q.1, p.2 + q.2)) (mapRows f_init nP)
        (loc.map (fun p => (clip01 p.1 * T, clip01 p.2 * T)))).map
        (fun r => (npInt (segment_format_c2b r).1, npInt (segment_format_c2b r).2))).getD k (0, 0)
    = (npInt ((f_init.getD (k / nP) 0 : ℚ) + clip01 (loc.getD k (0, 0)).1 * T),
       npInt ((f_init.getD (k / nP) 0 : ℚ) + clip01 (loc.getD k (0, 0)).1 * T
              + clip01 (loc.getD k (0, 0)).2 * T)) := by
  have hml : (mapRows f_init nP).length = f_init.length * nP := mapRows_length f_init nP
  have hkm : k < (mapRows f_init nP).length := by rw [hml]; exact hk
  have hkl : k < (loc.map (fun p => (clip01 p.1 * (T : ℚ), clip01 p.2 * T))).length := by
    rw [List.length_map, hloc]; exact hk
  have hkz : k < (List.zipWith (fun p q => ((p : ℚ × ℚ).1 + (q : ℚ × ℚ).1, p.2 + q.2))
      (mapRows f_init nP)
      (loc.map (fun p => (clip01 p.1 * (T : ℚ), clip01 p.2 * T)))).length := by
    rw [List.length_zipWith]; exact lt_min hkm hkl
  rw [getD_map_of_lt _ _ _ ((0 : ℚ), (0 : ℚ)) _ hkz,
    getD_zipWith_of_lt _ _ _ ((0 : ℚ), (0 : ℚ)) ((0 : ℚ), (0 : ℚ)) _ _ hkm hkl,
    mapRows_getD f_init nP k hk,
    getD_map_of_lt _ _ _ ((0 : ℚ), (0 : ℚ)) _ (by rw [hloc]; exact hk)]
  simp only [segment_format_c2b, zero_add]

/-! ## Claim theorems -/

/-- C1, counterexample: at `L = 384`, `T = 256`, `stride = 128` the source
computes `np.arange(0, 128, 128) = [0]`, a single window offset, whereas
`floor((L - T) / stride) + 1 = 2`: the stop value `L - T` is excluded by
`np.arange`, so the claimed count is wrong whenever `stride` divides
`L - T`. -/
theorem retrieve_window_count_cex :
    (windowOffsets 384 256 128).length ≠ (384 - 256) / 128 + 1 := by decide

/-- C1 (amended): for every video length `L`, window size `T` and positive
stride with `L > T`, the number of window start offsets computed by
`retrieve_proposals` equals `floor((L - T - 1) / stride) + 1`, i.e.
`ceil((L - T) / stride)`: the arithmetic sequence stops strictly before
`L - T`. -/
theorem retrieve_window_count (L T s : ℕ) (hLT : T < L) (hs : 0 < s) :
    (windowOffsets L T s).length = (L - T - 1) / s + 1 :=
  windowOffsets_length hLT hs

/-- C1, witness: the amended count at `L = 384`, `T = 256`, `stride = 128`. -/
theorem retrieve_window_count_witness :
    256 < 384 ∧ 0 < 128 ∧ (windowOffsets 384 256 128).length = (384 - 256 - 1) / 128 + 1 :=
  ⟨by norm_num, by norm_num, retrieve_window_count 384 256 128 (by norm_num) (by norm_num)⟩

/-- C2: evaluating the code at the failing input `"mlp:5,1,4,0.0,0.0"`.
The configuration string sets `drop_hid = 0.0` (`pyFloat` parses it to
`0`), so per the claim no hidden dropout layer should be present; but the
network built by `build_model` contains a dropout layer of rate
`0.5 = mkRat 1 2 ≠ 0` after its hidden dense layer, because `build_model`
parses `drop_hid` and then never passes it to `build_mlp`. -/
theorem build_model_ignores_drop_hid :
    pyFloat "0.0".data = some 0 ∧
    build_model "mlp:5,1,4,0.0,0.0" 4096 100 1
      = .ok ⟨[Layer.input 4096, Layer.dense 4 .rectify, Layer.dropout (mkRat 1 2)],
             Layer.dense 10 .rectify, Layer.dense 5 .sigmoid⟩ ∧
    (mkRat 1 2 : ℚ) ≠ 0 :=
  ⟨by decide, rfl, by decide⟩

/-- C5: for every call of `weigthed_binary_crossentropy` with predictions
in `[0, 1]` (including exactly 0 or 1) and any targets and weights, both
`predictions` and `1 - predictions` are clipped below at `EPSILON` before
the logarithm, so the elementwise result is finite (`some` value, never
`-inf`/`NaN`). -/
theorem weigthed_binary_crossentropy_finite (predictions targets w0 w1 : ℝ)
    (h0 : 0 ≤ predictions) (h1 : predictions ≤ 1) :
    EPSILON ≤ npclipInf predictions EPSILON ∧
    EPSILON ≤ npclipInf (1 - predictions) EPSILON ∧
    ∃ v : ℝ, weigthed_binary_crossentropy predictions targets w0 w1 = some v := by
  have hE : (0 : ℝ) < EPSILON := by norm_num [EPSILON]
  refine ⟨le_max_right _ _, le_max_right _ _, ?_⟩
  unfold weigthed_binary_crossentropy safeLog npclipInf
  rw [if_pos (lt_of_lt_of_le hE (le_max_right _ _)),
    if_pos (lt_of_lt_of_le hE (le_max_right _ _))]
  exact ⟨_, rfl⟩

/-- C5, witness: the loss is finite at the boundary prediction `0` with
target `1` and unit weights. -/
theorem weigthed_binary_crossentropy_finite_witness :
    (0 : ℝ) ≤ 0 ∧ (0 : ℝ) ≤ 1 ∧
    (EPSILON ≤ npclipInf 0 EPSILON ∧ EPSILON ≤ npclipInf (1 - 0) EPSILON ∧
      ∃ v : ℝ, weigthed_binary_crossentropy 0 1 1 1 = some v) :=
  ⟨le_refl 0, by norm_num,
    weigthed_binary_crossentropy_finite 0 1 1 1 (le_refl 0) (by norm_num)⟩

/-- C6: for every model configuration string whose prefix is neither
`"mlp:"` nor `"lstm:"`, `build_model` raises
`ValueError("Unrecognized model type " + model_prm)` and constructs no
network. -/
theorem build_model_unrecognized_raises (model_prm : String) (input_size : ℕ)
    (grad_clip forget_bias : ℚ)
    (h1 : startswith model_prm.data "mlp:".data = false)
    (h2 : startswith model_prm.data "lstm:".data = false) :
    build_model model_prm input_size grad_clip forget_bias
      = .error (.unrecognizedModelType
          ("Unrecognized model type ".data ++ model_prm.data)) := by
  simp [build_model, h1, h2]

/-- C6, witness: the configuration string `"cnn:3,4"`. -/
theorem build_model_unrecognized_witness :
    startswith "cnn:3,4".data "mlp:".data = false ∧
    startswith "cnn:3,4".data "lstm:".data = false ∧
    build_model "cnn:3,4" 4096 100 1
      = .error (.unrecognizedModelType
          ("Unrecognized model type ".data ++ "cnn:3,4".data)) :=
  ⟨rfl, rfl, build_model_unrecognized_raises "cnn:3,4" 4096 100 1 rfl rfl⟩

/-- C7: for the configuration `"mlp:5,1,4,0.0,0.0"`, `build_model` returns
a localization head that is a dense layer of width `10 = 2 * n_outputs`
whose nonlinearity (the `DenseLayer` default, rectify) is not
range-bounding, and a confidence head that is a dense layer of width `5`
with the sigmoid nonlinearity. -/
theorem build_model_output_heads :
    (build_model "mlp:5,1,4,0.0,0.0" 4096 100 1).map (fun n => (n.localization, n.conf))
      = .ok (Layer.dense 10 .rectify, Layer.dense 5 .sigmoid) ∧
    Nonlinearity.isBoundedRange .rectify = false ∧
    Nonlinearity.isBoundedRange .sigmoid = true :=
  ⟨rfl, rfl, rfl⟩

/-- C9, counterexample: when the batched feature read raises, the
feature-store handle opened at the start of `retrieve_proposals` is never
closed — the trace of the failing run is `[openInst]`, with no
`closeInst`.  The source has no `try`/`finally` around the read. -/
theorem retrieve_close_skipped_on_read_error :
    REvent.closeInst ∉
      (retrieve_proposals failStore demoNet "v" 384 256 128 "mlp:1,1,1,0.0,0.0").2 := by
  decide

/-- C9 (amended): the feature-store handle opened at the start of
`retrieve_proposals` is closed before the forward pass on every execution
in which the batched feature read and the optional lstm reshape succeed;
if either of them raises, the error propagates without the handle being
closed. -/
theorem retrieve_close_on_success {store : FeatureStore}
    {net_eval : FeatStack → List (List ℚ) × List (List ℚ)}
    {video : String} {L T s : ℕ} {prm : String}
    {feat_rows : List (List ℚ)} {feat_stack : FeatStack}
    (hread : store.readBatch video (windowOffsets L T s) T = .ok feat_rows)
    (hstack : buildStack prm feat_rows = .ok feat_stack) :
    (retrieve_proposals store net_eval video L T s prm).2
      = [REvent.openInst, REvent.readBatchEv, REvent.closeInst] := by
  simp only [retrieve_proposals, hread, hstack]
  rcases hF : forward_pass net_eval feat_stack with _ | ⟨loc, score⟩
  · simp only [hF]
  · simp only [hF]
    split
    · split <;> rfl
    · rfl

/-- C9, witness: a successful run on the demo store closes the handle. -/
theorem retrieve_close_on_success_witness :
    demoStore.readBatch "v" (windowOffsets 384 256 128) 256 = .ok [[(1 : ℚ), 2]] ∧
    buildStack "mlp:1,1,1,0.0,0.0" [[(1 : ℚ), 2]] = .ok (.flat [[(1 : ℚ), 2]]) ∧
    (retrieve_proposals demoStore demoNet "v" 384 256 128 "mlp:1,1,1,0.0,0.0").2
      = [REvent.openInst, REvent.readBatchEv, REvent.closeInst] :=
  ⟨rfl, rfl, retrieve_close_on_success rfl rfl⟩

/-- C3: for every video with length `L <= T`, the window-offset sequence
computed by `retrieve_proposals` is empty and any normal return of
`retrieve_proposals` carries an empty proposal sequence and an empty score
sequence. -/
theorem retrieve_empty_when_short {store : FeatureStore}
    {net_eval : FeatStack → List (List ℚ) × List (List ℚ)}
    {video : String} {L T s : ℕ} {prm : String}
    {props : List (ℤ × ℤ)} {scores : List ℚ} {tr : List REvent}
    (hLT : L ≤ T)
    (hrun : retrieve_proposals store net_eval video L T s prm = (.ok (props, scores), tr)) :
    windowOffsets L T s = [] ∧ props = [] ∧ scores = [] := by
  have hnil : windowOffsets L T s = [] := windowOffsets_nil_of_le hLT
  obtain ⟨fr, fs, loc, score, absRows, hread, hstack, hfwd, hseg, hadd, hp, hsflat, htr⟩ :=
    retrieve_ok_inv hrun
  rw [hnil] at hseg hadd
  have hscore : score = [] := List.length_eq_zero.mp hseg.symm
  subst hscore
  have habs : absRows = [] := npAddRows_nil_ok hadd
  refine ⟨hnil, ?_, ?_⟩
  · rw [hp, habs]
    rfl
  · rw [hsflat]
    rfl

/-- C3, witness: a short video (`L = 100 <= T = 256`) on the demo store
yields the empty proposal and score sequences. -/
theorem retrieve_empty_when_short_witness :
    100 ≤ 256 ∧
    retrieve_proposals demoStore demoNet "v" 100 256 128 "mlp:1,1,1,0.0,0.0"
      = (.ok (([] : List (ℤ × ℤ)), ([] : List ℚ)),
         [REvent.openInst, REvent.readBatchEv, REvent.closeInst]) ∧
    (windowOffsets 100 256 128 = [] ∧ ([] : List (ℤ × ℤ)) = [] ∧ ([] : List ℚ) = []) :=
  ⟨by norm_num, rfl,
    @retrieve_empty_when_short demoStore demoNet "v" 100 256 128 "mlp:1,1,1,0.0,0.0"
      [] [] [REvent.openInst, REvent.readBatchEv, REvent.closeInst] (by norm_num) rfl⟩

/-- C8: on every successful run of `retrieve_proposals` over a score
matrix of `n_segments = score.length` rows each of width
`n_proposals = nP`, the returned proposal sequence and the returned flat
score sequence both have length `n_segments * n_proposals`. -/
theorem retrieve_output_lengths {store : FeatureStore}
    {net_eval : FeatStack → List (List ℚ) × List (List ℚ)}
    {video : String} {L T s : ℕ} {prm : String}
    {feat_rows : List (List ℚ)} {feat_stack : FeatStack}
    {loc : List (ℚ × ℚ)} {score : List (List ℚ)} {nP : ℕ}
    (hread : store.readBatch video (windowOffsets L T s) T = .ok feat_rows)
    (hstack : buildStack prm feat_rows = .ok feat_stack)
    (hfwd : forward_pass net_eval feat_stack = some (loc, score))
    (hseg : (windowOffsets L T s).length = score.length)
    (hnP : nP = (score.headD []).length)
    (hcols : ∀ r ∈ score, r.length = nP)
    (hloc : loc.length = score.length * nP) :
    ∃ props scores tr,
      retrieve_proposals store net_eval video L T s prm = (.ok (props, scores), tr) ∧
      props.length = score.length * nP ∧ scores.length = score.length * nP := by
  subst hnP
  refine ⟨_, _, _, retrieve_run hread hstack hfwd hseg hloc, ?_, ?_⟩
  · rw [List.length_map, List.length_zipWith, mapRows_length, List.length_map, hloc, hseg,
      min_self]
  · exact flatten_length_uniform hcols

/-- C8, witness: the demo run has one window and one proposal per window,
and both outputs have length `1 * 1`. -/
theorem retrieve_output_lengths_witness :
    demoStore.readBatch "v" (windowOffsets 384 256 128) 256 = .ok [[(1 : ℚ), 2]] ∧
    buildStack "mlp:1,1,1,0.0,0.0" [[(1 : ℚ), 2]] = .ok (.flat [[(1 : ℚ), 2]]) ∧
    forward_pass demoNet (.flat [[(1 : ℚ), 2]]) = some ([((2 : ℚ), -1)], [[(3 : ℚ)]]) ∧
    (windowOffsets 384 256 128).length = [[(3 : ℚ)]].length ∧
    (1 : ℕ) = ([[(3 : ℚ)]].headD []).length ∧
    (∀ r ∈ [[(3 : ℚ)]], r.length = 1) ∧
    [((2 : ℚ), -1)].length = [[(3 : ℚ)]].length * 1 ∧
    (∃ props scores tr,
      retrieve_proposals demoStore demoNet "v" 384 256 128 "mlp:1,1,1,0.0,0.0"
        = (.ok (props, scores), tr) ∧
      props.length = [[(3 : ℚ)]].length * 1 ∧ scores.length = [[(3 : ℚ)]].length * 1) :=
  ⟨rfl, rfl, rfl, rfl, rfl, by decide, rfl,
    retrieve_output_lengths rfl rfl rfl rfl rfl (by decide) rfl⟩

/-- C10: on every successful run of `retrieve_proposals`, the flattened
score sequence is the row-major flattening of the score matrix —
`scores[k] = score[k / nP][k % nP]` — and the `k`-th proposal is derived
from the same window: its window-start component is
`f_init_array[k / nP]` (each window start repeated `nP` consecutive
times), to which the clipped and scaled `k`-th localization pair is added
before the corner-to-boundary conversion and integer truncation. -/
theorem retrieve_index_alignment {store : FeatureStore}
    {net_eval : FeatStack → List (List ℚ) × List (List ℚ)}
    {video : String} {L T s : ℕ} {prm : String}
    {feat_rows : List (List ℚ)} {feat_stack : FeatStack}
    {loc : List (ℚ × ℚ)} {score : List (List ℚ)} {nP : ℕ}
    (hread : store.readBatch video (windowOffsets L T s) T = .ok feat_rows)
    (hstack : buildStack prm feat_rows = .ok feat_stack)
    (hfwd : forward_pass net_eval feat_stack = some (loc, score))
    (hseg : (windowOffsets L T s).length = score.length)
    (hnP : nP = (score.headD []).length)
    (hcols : ∀ r ∈ score, r.length = nP)
    (hloc : loc.length = score.length * nP) :
    ∃ props scores tr,
      retrieve_proposals store net_eval video L T s prm = (.ok (props, scores), tr) ∧
      ∀ k, k < score.length * nP →
        scores.getD k 0 = (score.getD (k / nP) []).getD (k % nP) 0 ∧
        props.getD k (0, 0)
          = (npInt (((windowOffsets L T s).getD (k / nP) 0 : ℚ)
                + clip01 (loc.getD k (0, 0)).1 * T),
             npInt (((windowOffsets L T s).getD (k / nP) 0 : ℚ)
                + clip01 (loc.getD k (0, 0)).1 * T + clip01 (loc.getD k (0, 0)).2 * T)) := by
  subst hnP
  refine ⟨_, _, _, retrieve_run hread hstack hfwd hseg hloc, ?_⟩
  intro k hk
  have hk' : k < (windowOffsets L T s).length * (score.headD []).length := by
    rw [hseg]; exact hk
  have hloc' : loc.length = (windowOffsets L T s).length * (score.headD []).length := by
    rw [hseg]; exact hloc
  exact ⟨flatten_getD_uniform 0 score _ k hcols hk,
    output_getD (windowOffsets L T s) loc _ T k hk' hloc'⟩

/-- C10, witness: on the demo run (one window starting at 0, one proposal),
the flattened score and the proposal at index 0 are derived from window 0. -/
theorem retrieve_index_alignment_witness :
    demoStore.readBatch "v" (windowOffsets 384 256 128) 256 = .ok [[(1 : ℚ), 2]] ∧
    buildStack "mlp:1,1,1,0.0,0.0" [[(1 : ℚ), 2]] = .ok (.flat [[(1 : ℚ), 2]]) ∧
    forward_pass demoNet (.flat [[(1 : ℚ), 2]]) = some ([((2 : ℚ), -1)], [[(3 : ℚ)]]) ∧
    (windowOffsets 384 256 128).length = [[(3 : ℚ)]].length ∧
    (1 : ℕ) = ([[(3 : ℚ)]].headD []).length ∧
    (∀ r ∈ [[(3 : ℚ)]], r.length = 1) ∧
    [((2 : ℚ), -1)].length = [[(3 : ℚ)]].length * 1 ∧
    (∃ props scores tr,
      retrieve_proposals demoStore demoNet "v" 384 256 128 "mlp:1,1,1,0.0,0.0"
        = (.ok (props, scores), tr) ∧
      ∀ k, k < [[(3 : ℚ)]].length * 1 →
        scores.getD k 0 = ([[(3 : ℚ)]].getD (k / 1) []).getD (k % 1) 0 ∧
        props.getD k (0, 0)
          = (npInt (((windowOffsets 384 256 128).getD (k / 1) 0 : ℚ)
                + clip01 ([((2 : ℚ), (-1 : ℚ))].getD k (0, 0)).1 * ((256 : ℕ) : ℚ)),
             npInt (((windowOffsets 384 256 128).getD (k / 1) 0 : ℚ)
                + clip01 ([((2 : ℚ), (-1 : ℚ))].getD k (0, 0)).1 * ((256 : ℕ) : ℚ)
                + clip01 ([((2 : ℚ), (-1 : ℚ))].getD k (0, 0)).2 * ((256 : ℕ) : ℚ)))) :=
  ⟨rfl, rfl, rfl, rfl, rfl, by decide, rfl,
    @retrieve_index_alignment demoStore demoNet "v" 384 256 128 "mlp:1,1,1,0.0,0.0"
      [[(1 : ℚ), 2]] (.flat [[(1 : ℚ), 2]]) [((2 : ℚ), -1)] [[(3 : ℚ)]] 1
      rfl rfl rfl rfl rfl (by decide) rfl⟩

/-- C4: the scalar clip of the source satisfies `0 <= clip01 x <= 1` for
every raw localization value `x`, and consequently on every successful run
of `retrieve_proposals` every returned proposal stays inside its window:
the start coordinate lies in `[window_start, window_start + T]` and the
end coordinate in `[start, window_start + 2 * T]`, no matter how far out
of range the raw regression outputs are. -/
theorem retrieve_clipped_coordinates {store : FeatureStore}
    {net_eval : FeatStack → List (List ℚ) × List (List ℚ)}
    {video : String} {L T s : ℕ} {prm : String}
    {feat_rows : List (List ℚ)} {feat_stack : FeatStack}
    {loc : List (ℚ × ℚ)} {score : List (List ℚ)} {nP : ℕ}
    (hread : store.readBatch video (windowOffsets L T s) T = .ok feat_rows)
    (hstack : buildStack prm feat_rows = .ok feat_stack)
    (hfwd : forward_pass net_eval feat_stack = some (loc, score))
    (hseg : (windowOffsets L T s).length = score.length)
    (hnP : nP = (score.headD []).length)
    (hloc : loc.length = score.length * nP) :
    (∀ x : ℚ, 0 ≤ clip01 x ∧ clip01 x ≤ 1) ∧
    ∃ props scores tr,
      retrieve_proposals store net_eval video L T s prm = (.ok (props, scores), tr) ∧
      ∀ k, k < score.length * nP →
        (windowOffsets L T s).getD (k / nP) 0 ≤ (props.getD k (0, 0)).1 ∧
        (props.getD k (0, 0)).1 ≤ (windowOffsets L T s).getD (k / nP) 0 + T ∧
        (props.getD k (0, 0)).1 ≤ (props.getD k (0, 0)).2 ∧
        (props.getD k (0, 0)).2 ≤ (windowOffsets L T s).getD (k / nP) 0 + 2 * T := by
  subst hnP
  refine ⟨fun x => ⟨clip01_nonneg x, clip01_le_one x⟩,
    _, _, _, retrieve_run hread hstack hfwd hseg hloc, ?_⟩
  intro k hk
  have hk' : k < (windowOffsets L T s).length * (score.headD []).length := by
    rw [hseg]; exact hk
  have hloc' : loc.length = (windowOffsets L T s).length * (score.headD []).length := by
    rw [hseg]; exact hloc
  rw [output_getD (windowOffsets L T s) loc _ T k hk' hloc']
  have hc1 : 0 ≤ clip01 (loc.getD k (0, 0)).1 ∧ clip01 (loc.getD k (0, 0)).1 ≤ 1 :=
    ⟨clip01_nonneg _, clip01_le_one _⟩
  have hc2 : 0 ≤ clip01 (loc.getD k (0, 0)).2 ∧ clip01 (loc.getD k (0, 0)).2 ≤ 1 :=
    ⟨clip01_nonneg _, clip01_le_one _⟩
  have hT0 : (0 : ℚ) ≤ (T : ℚ) := Nat.cast_nonneg T
  have ht1 : clip01 (loc.getD k (0, 0)).1 * T ≤ T := by
    have := mul_le_mul_of_nonneg_right hc1.2 hT0
    rwa [one_mul] at this
  have ht2 : clip01 (loc.getD k (0, 0)).2 * T ≤ T := by
    have := mul_le_mul_of_nonneg_right hc2.2 hT0
    rwa [one_mul] at this
  have hm1 : (0 : ℚ) ≤ clip01 (loc.getD k (0, 0)).1 * T := mul_nonneg hc1.1 hT0
  have hm2 : (0 : ℚ) ≤ clip01 (loc.getD k (0, 0)).2 * T := mul_nonneg hc2.1 hT0
  refine ⟨le_npInt (le_add_of_nonneg_right hm1), npInt_le (by push_cast; linarith),
    npInt_mono (le_add_of_nonneg_right hm2), npInt_le (by push_cast; linarith)⟩

/-- C4, witness: on the demo run the raw localization outputs `2` and `-1`
are both out of range, and the proposal at index 0 stays inside the window
`[0, 512]` starting at offset 0. -/
theorem retrieve_clipped_coordinates_witness :
    demoStore.readBatch "v" (windowOffsets 384 256 128) 256 = .ok [[(1 : ℚ), 2]] ∧
    buildStack "mlp:1,1,1,0.0,0.0" [[(1 : ℚ), 2]] = .ok (.flat [[(1 : ℚ), 2]]) ∧
    forward_pass demoNet (.flat [[(1 : ℚ), 2]]) = some ([((2 : ℚ), -1)], [[(3 : ℚ)]]) ∧
    (windowOffsets 384 256 128).length = [[(3 : ℚ)]].length ∧
    (1 : ℕ) = ([[(3 : ℚ)]].headD []).length ∧
    [((2 : ℚ), -1)].length = [[(3 : ℚ)]].length * 1 ∧
    ((∀ x : ℚ, 0 ≤ clip01 x ∧ clip01 x ≤ 1) ∧
      ∃ props scores tr,
        retrieve_proposals demoStore demoNet "v" 384 256 128 "mlp:1,1,1,0.0,0.0"
          = (.ok (props, scores), tr) ∧
        ∀ k, k < [[(3 : ℚ)]].length * 1 →
          (windowOffsets 384 256 128).getD (k / 1) 0 ≤ (props.getD k (0, 0)).1 ∧
          (props.getD k (0, 0)).1 ≤ (windowOffsets 384 256 128).getD (k / 1) 0 + 256 ∧
          (props.getD k (0, 0)).1 ≤ (props.getD k (0, 0)).2 ∧
          (props.getD k (0, 0)).2 ≤ (windowOffsets 384 256 128).getD (k / 1) 0 + 2 * 256) :=
  ⟨rfl, rfl, rfl, rfl, rfl, rfl,
    retrieve_clipped_coordinates rfl rfl rfl rfl rfl rfl⟩
